import Mathlib

/-!
Verification of the trace aggregation pipeline in `langfuse_client.py`.

The development shallowly embeds the two pure aggregation functions
(`aggregate_company_conversations`, `aggregate_tool_calls_by_name`), the
static test-company denylist, the per-trace normalization performed by
`fetch_traces_by_company`, and the pagination control flow of that fetch
loop.  Pandas data frames are modelled as a list of typed rows together
with the list of column names; Python string lowercasing is modelled for
ASCII (all company names and denylist entries in play are ASCII); the
success-rate arithmetic is modelled exactly over the rationals, with the
one-decimal rounding of `Series.round(1)` modelled as round-half-to-even
(numpy rounding), kept in integer tenths so that everything stays
decidable.
-/

/-- Python `str.lower` on an ASCII character: uppercase letters are shifted
into lowercase, every other character is unchanged. -/
def pyLowerChar (c : Char) : Char :=
  if 'A' ≤ c && c ≤ 'Z' then Char.ofNat (c.toNat + 32) else c

/-- Python `str.lower` for ASCII strings (models `company_name.lower()` and
`c.lower()` in the aggregators). -/
def pyLower (s : String) : String := String.mk (s.data.map pyLowerChar)

/-- The static denylist `TEST_COMPANIES` of `langfuse_client.py`
(lines 451-458), in source order. -/
def TEST_COMPANIES : List String :=
  [ "startx", "startxcommunity", "invoicemate", "leoadsai", "test",
    "fibonacci101", "fibonacci", "fibonacci300", "test-company", "thisworks",
    "vandelayindustries", "redbull", "avery", "averymagoriumswonderemporium",
    "holly", "unknown company", "finaltest", "leotest",
    "tombroschinskydigitallic", "tombroschinskydigitalllc", "wawa", "agoodcompany",
    "tesla", "pacarana", "apple", "prada", "bruce", "intuit" ]

/-- The filter predicate shared by both aggregators:
`df['company_name'].str.lower().isin([c.lower() for c in TEST_COMPANIES])`. -/
def isTestCompany (name : String) : Bool :=
  (TEST_COMPANIES.map pyLower).contains (pyLower name)

/-- One normalized trace record as appended by `fetch_traces_by_company`
(lines 401-408).  The timestamp column is not modelled: no aggregate reads
it.  `success_count` and `failure_count` are Python ints. -/
structure TraceRecord where
  company_name : String
  conversation_id : String
  trace_id : String
  success_count : Int
  failure_count : Int
deriving DecidableEq

/-- One tool-call record as appended by `fetch_tool_calls_by_company`
(lines 675-680); the timestamp column is not modelled. -/
structure ToolCallRecord where
  company_name : String
  tool_name : String
  success : Bool
deriving DecidableEq

/-- A pandas data frame with rows of type `ρ`: the list of column names
together with the typed rows. -/
structure Frame (ρ : Type) where
  columns : List String
  rows : List ρ
deriving DecidableEq

/-- One row of the company rollup: columns Company, Number of
Conversations, Number of Tool Calls, Success Count, Failure Count. -/
structure CompanyRow where
  company : String
  numConversations : Nat
  numToolCalls : Nat
  successCount : Int
  failureCount : Int
deriving DecidableEq

/-- One row of the tool rollup: columns Company, Tool Name, Total Calls,
Successful, Failed, Success Rate (%).  The rounded percentage is kept in
integer tenths of a percent (`667` stands for `66.7`); `ToolRow.successRate`
recovers the rational value. -/
structure ToolRow where
  company : String
  toolName : String
  totalCalls : Nat
  successful : Nat
  failed : Nat
  successRateTenths : Nat
deriving DecidableEq

/-- The value of the Success Rate (%) column of a tool rollup row. -/
def ToolRow.successRate (r : ToolRow) : ℚ := (r.successRateTenths : ℚ) / 10

/-- `n / d` rounded to the nearest integer, ties to even (numpy rounding),
in natural-number arithmetic. -/
def roundTenthsHalfEven (n d : Nat) : Nat :=
  let q := n / d
  let r := n % d
  if 2 * r < d then q
  else if d < 2 * r then q + 1
  else if q % 2 = 0 then q else q + 1

/-- Rounding of a rational to the nearest integer, ties to even. -/
def roundHalfEvenQ (q : ℚ) : ℤ :=
  if q - ⌊q⌋ < 1 / 2 then ⌊q⌋
  else if 1 / 2 < q - ⌊q⌋ then ⌊q⌋ + 1
  else if ⌊q⌋ % 2 = 0 then ⌊q⌋ else ⌊q⌋ + 1

/-- `Series.round(1)`: a rational rounded to one decimal place,
ties to even. -/
def round1 (q : ℚ) : ℚ := (roundHalfEvenQ (q * 10) : ℚ) / 10

/-- The denylist filter applied to the trace list by
`aggregate_company_conversations` (line 479). -/
def filteredTraces (traces : List TraceRecord) : List TraceRecord :=
  traces.filter (fun t => !isTestCompany t.company_name)

/-- The records of one company inside a filtered trace list (one pandas
group of `df.groupby('company_name')`). -/
def companyRecords (df : List TraceRecord) (c : String) : List TraceRecord :=
  df.filter (fun t => t.company_name == c)

/-- The number of distinct `conversation_id` values among one company's
records (the `groupby(['company_name','conversation_id'])` then
count-per-company step, lines 485-489). -/
def distinctConversationCount (df : List TraceRecord) (c : String) : Nat :=
  (((companyRecords df c).map (fun t => t.conversation_id)).dedup).length

/-- The row that the company rollup produces for company `c` of the
filtered trace list `df`. -/
def companyRowOf (df : List TraceRecord) (c : String) : CompanyRow :=
  { company := c
    numConversations := distinctConversationCount df c
    numToolCalls := (companyRecords df c).length
    successCount := ((companyRecords df c).map (fun t => t.success_count)).sum
    failureCount := ((companyRecords df c).map (fun t => t.failure_count)).sum }

/-- Lexicographic comparison of char lists by code point (Python string
`<`, used by `sort_values` on the Company column). -/
def charListLt : List Char → List Char → Bool
  | [], [] => false
  | [], _ :: _ => true
  | _ :: _, [] => false
  | a :: as, b :: bs =>
    if a.toNat < b.toNat then true
    else if b.toNat < a.toNat then false
    else charListLt as bs

/-- Python string comparison `a < b`. -/
def pyStrLt (a b : String) : Bool := charListLt a.data b.data

/-- Ordering used for `sort_values('Number of Conversations', ascending=False)`:
`a` sorts no later than `b` when its conversation count is no smaller. -/
def companyRowLE (a b : CompanyRow) : Prop :=
  b.numConversations ≤ a.numConversations

instance : DecidableRel companyRowLE :=
  fun a b => inferInstanceAs (Decidable (b.numConversations ≤ a.numConversations))

/-- Column set of the empty-input result of
`aggregate_company_conversations` (lines 472-473 and 481-482). -/
def companyEmptyColumns : List String :=
  ["Company", "Number of Conversations", "Number of Tool Calls"]

/-- Column set of the non-empty result of `aggregate_company_conversations`
after both merges (lines 511-518). -/
def companyFullColumns : List String :=
  ["Company", "Number of Conversations", "Number of Tool Calls",
   "Success Count", "Failure Count"]

/-- `aggregate_company_conversations` (lines 461-523): filter out test
companies case-insensitively, group the remaining records by company, count
distinct conversation ids and raw records per company, sum the success and
failure counters, and sort by conversation count descending.  The outer
joins of the source never fill anything: all three groupings are computed
from the same filtered frame, so they share one key set. -/
def aggregate_company_conversations (traces : List TraceRecord) : Frame CompanyRow :=
  if traces.isEmpty then ⟨companyEmptyColumns, []⟩
  else
    let df := filteredTraces traces
    if df.isEmpty then ⟨companyEmptyColumns, []⟩
    else
      let companies := (df.map (fun t => t.company_name)).dedup
      ⟨companyFullColumns, List.insertionSort companyRowLE (companies.map (companyRowOf df))⟩

/-- The denylist filter applied by `aggregate_tool_calls_by_name`
(line 737). -/
def filteredToolCalls (tool_calls : List ToolCallRecord) : List ToolCallRecord :=
  tool_calls.filter (fun t => !isTestCompany t.company_name)

/-- The records of one `(company_name, tool_name)` group of the filtered
tool-call list. -/
def toolRecords (df : List ToolCallRecord) (c n : String) : List ToolCallRecord :=
  df.filter (fun t => t.company_name == c && t.tool_name == n)

/-- The row the tool rollup produces for the group keyed by `k`:
Total Calls = group size, Successful = number of `success = true` records
(`sum` of the boolean column), Failed = total minus successful, and the
success rate `successful / total * 100` rounded to one decimal place,
kept in tenths. -/
def toolRowOf (df : List ToolCallRecord) (k : String × String) : ToolRow :=
  let recs := toolRecords df k.1 k.2
  let total := recs.length
  let nSuccessful := recs.countP (fun t => t.success)
  { company := k.1
    toolName := k.2
    totalCalls := total
    successful := nSuccessful
    failed := total - nSuccessful
    successRateTenths := roundTenthsHalfEven (nSuccessful * 1000) total }

/-- Ordering used for `sort_values(['Company','Total Calls'],
ascending=[True, False])`: company ascending, then total calls
descending within a company. -/
def toolRowLE (a b : ToolRow) : Prop :=
  pyStrLt a.company b.company = true ∨
    (a.company = b.company ∧ b.totalCalls ≤ a.totalCalls)

instance : DecidableRel toolRowLE :=
  fun _ _ => inferInstanceAs (Decidable (_ ∨ _ ∧ _))

/-- Column set of the tool rollup (lines 731, 740, 748-754). -/
def toolColumns : List String :=
  ["Company", "Tool Name", "Total Calls", "Successful", "Failed",
   "Success Rate (%)"]

/-- `aggregate_tool_calls_by_name` (lines 719-764): filter out test
companies case-insensitively, group by `(company_name, tool_name)`, count
total and successful calls, derive failed calls and the rounded success
rate, and sort by company ascending then total calls descending. -/
def aggregate_tool_calls_by_name (tool_calls : List ToolCallRecord) : Frame ToolRow :=
  if tool_calls.isEmpty then ⟨toolColumns, []⟩
  else
    let df := filteredToolCalls tool_calls
    if df.isEmpty then ⟨toolColumns, []⟩
    else
      let keys := (df.map (fun t => (t.company_name, t.tool_name))).dedup
      ⟨toolColumns, List.insertionSort toolRowLE (keys.map (toolRowOf df))⟩

/-- One raw trace object of a fetched page (`data` entry of the paginated
response), with the metadata keys that `fetch_traces_by_company` consults.
`none` models an absent key (or an absent `metadata` object); `some ""`
models a key bound to an empty string, which Python `or` chains treat as
absent.  The nested `metadata.tools.successful` / `metadata.tools.failed`
counters are taken as already-numeric; the full Python `int` coercion with
its zero default on failure is outside the embedding. -/
structure RawTrace where
  id : String
  md_company_name : Option String
  md_companyName : Option String
  md_company : Option String
  md_conversation_id : Option String
  md_conversationId : Option String
  session_id : Option String
  sessionId : Option String
  tools_successful : Option Int
  tools_failed : Option Int
deriving DecidableEq

/-- Python truthiness of an optional string: present and non-empty. -/
def pyTruthy (s : Option String) : Bool :=
  match s with
  | some s => !(s == "")
  | none => false

/-- A Python `a or b or ...` chain over optional strings: the first
present, non-empty value, else `none`. -/
def firstTruthy : List (Option String) → Option String
  | [] => none
  | o :: rest => if pyTruthy o then o else firstTruthy rest

/-- `x or 0` on an optional numeric metadata counter. -/
def pyIntOr0 (x : Option Int) : Int :=
  match x with
  | some n => n
  | none => 0

/-- Per-trace normalization of `fetch_traces_by_company` (lines 306-408):
ordered fallback lookup for the conversation id
(`metadata.conversation_id`, `metadata.conversationId`, `session_id`,
`sessionId`, else `"trace_" ++ id`), ordered fallback lookup for the
company name (`metadata.company_name`, `metadata.companyName`,
`metadata.company`, else the sentinel `"Unknown Company"`), and the
zero-defaulted tool counters.  Timestamp parsing is not modelled. -/
def normalizeTrace (t : RawTrace) : TraceRecord :=
  let conversationId :=
    firstTruthy [t.md_conversation_id, t.md_conversationId, t.session_id, t.sessionId]
  let companyName :=
    (firstTruthy [t.md_company_name, t.md_companyName, t.md_company]).getD "Unknown Company"
  { company_name := companyName
    conversation_id :=
      match conversationId with
      | some c => c
      | none => "trace_" ++ t.id
    trace_id := t.id
    success_count := pyIntOr0 t.tools_successful
    failure_count := pyIntOr0 t.tools_failed }

/-- What one iteration of the pagination loop observes for a given page
number: a completed HTTP exchange (status code, `data` list, optional
`meta.page` and `meta.totalPages`), a `requests` exception raised by the
page request, or some other exception raised while processing the page. -/
inductive PageOutcome where
  | http (status : Nat) (data : List RawTrace) (meta : Option (Nat × Nat))
  | requestError
  | processError
deriving DecidableEq

/-- The `has_more` computation of lines 283-291: prefer
`meta.page < meta.totalPages`, else fall back to a full-page heuristic. -/
def pageHasMore (pageSize : Nat) (data : List RawTrace) (meta : Option (Nat × Nat)) : Bool :=
  match meta with
  | some (cur, tot) => cur < tot
  | none => decide (data.length ≥ pageSize)

/-- The pagination loop of `fetch_traces_by_company` (lines 221-432) over
an abstract API `api : page number → outcome`.  Returns the accumulated
records together with the number of page requests issued.  Mirrors the
source: stop when `page > max_pages`; a `requests` exception breaks out
keeping the records gathered so far; any other per-page error breaks only
on the first page and otherwise advances to the next page; a non-200
status breaks; an empty `data` list breaks; records of a 200 page are all
appended; pagination continues only while `has_more` holds and the page
was full, and hitting the page ceiling stops with the records kept. -/
def fetchGo (api : Nat → PageOutcome) (pageSize maxPages : Nat)
    (page : Nat) (acc : List TraceRecord) (reqs : Nat) : List TraceRecord × Nat :=
  if _h : maxPages < page then (acc, reqs)
  else
    match api page with
    | .requestError => (acc, reqs + 1)
    | .processError =>
      if page = 1 then (acc, reqs + 1)
      else if maxPages < page + 1 then (acc, reqs + 1)
      else fetchGo api pageSize maxPages (page + 1) acc (reqs + 1)
    | .http status data meta =>
      if status = 200 then
        let hasMore := pageHasMore pageSize data meta
        if data.isEmpty then (acc, reqs + 1)
        else
          let acc2 := acc ++ data.map normalizeTrace
          if !hasMore || data.length < pageSize then (acc2, reqs + 1)
          else if maxPages < page + 1 then (acc2, reqs + 1)
          else fetchGo api pageSize maxPages (page + 1) acc2 (reqs + 1)
      else (acc, reqs + 1)
termination_by maxPages + 1 - page
decreasing_by all_goals omega

/-- `fetch_traces_by_company` over the abstract API: page size 50, page
ceiling 100, starting from page 1 with no records. -/
def fetch_traces_by_company (api : Nat → PageOutcome) : List TraceRecord :=
  (fetchGo api 50 100 1 [] 0).1

/-- The number of page requests a fetch issues. -/
def fetchRequestCount (api : Nat → PageOutcome) : Nat :=
  (fetchGo api 50 100 1 [] 0).2

/-- Three records for company Acme with conversation ids c1, c1, c2
(the worked example of the specification). -/
def acmeTraces : List TraceRecord :=
  [⟨"Acme", "c1", "t1", 0, 0⟩, ⟨"Acme", "c1", "t2", 0, 0⟩,
   ⟨"Acme", "c2", "t3", 0, 0⟩]

/-- Three search calls with success true, false, true (the worked example
of the specification). -/
def searchCalls : List ToolCallRecord :=
  [⟨"Acme", "search", true⟩, ⟨"Acme", "search", false⟩,
   ⟨"Acme", "search", true⟩]

/-- A raw trace whose metadata carries a company name and a conversation
id, for exercising the pagination loop on concrete pages. -/
def rawAcme : RawTrace :=
  ⟨"t0", some "Acme", none, none, some "c0", none, none, none, none, none⟩

/-- A raw trace missing every recognized company-name key. -/
def rawNoCompany : RawTrace :=
  ⟨"t9", none, none, none, some "c7", none, none, none, some 2, some 1⟩

section Lemmas

/-- Membership in a filtered trace list. -/
lemma mem_filteredTraces {traces : List TraceRecord} {t : TraceRecord} :
    t ∈ filteredTraces traces ↔ t ∈ traces ∧ isTestCompany t.company_name = false := by
  simp [filteredTraces, List.mem_filter]

/-- Membership in a filtered tool-call list. -/
lemma mem_filteredToolCalls {tcs : List ToolCallRecord} {t : ToolCallRecord} :
    t ∈ filteredToolCalls tcs ↔ t ∈ tcs ∧ isTestCompany t.company_name = false := by
  simp [filteredToolCalls, List.mem_filter]

/-- Membership in one company's record group. -/
lemma mem_companyRecords {df : List TraceRecord} {t : TraceRecord} {c : String} :
    t ∈ companyRecords df c ↔ t ∈ df ∧ t.company_name = c := by
  simp [companyRecords, List.mem_filter]

/-- Membership in one `(company, tool)` record group. -/
lemma mem_toolRecords {df : List ToolCallRecord} {t : ToolCallRecord} {c n : String} :
    t ∈ toolRecords df c n ↔ t ∈ df ∧ t.company_name = c ∧ t.tool_name = n := by
  simp [toolRecords, List.mem_filter]

/-- The rows of the company rollup are exactly the rows built for the
companies occurring in the filtered trace list. -/
lemma mem_companyAgg {traces : List TraceRecord} {r : CompanyRow} :
    r ∈ (aggregate_company_conversations traces).rows ↔
      ∃ c, c ∈ (filteredTraces traces).map (fun t => t.company_name) ∧
        r = companyRowOf (filteredTraces traces) c := by
  by_cases h1 : traces.isEmpty
  · have h0 : traces = [] := List.isEmpty_iff.mp h1
    subst h0
    simp [aggregate_company_conversations, filteredTraces]
  · by_cases h2 : (filteredTraces traces).isEmpty
    · have hnil : filteredTraces traces = [] := List.isEmpty_iff.mp h2
      simp [aggregate_company_conversations, h1, h2, hnil]
    · simp only [aggregate_company_conversations, h1, h2, Bool.false_eq_true,
        if_false, List.mem_insertionSort, List.mem_map, List.mem_dedup]
      constructor
      · rintro ⟨c, hc, hr⟩
        exact ⟨c, hc, hr.symm⟩
      · rintro ⟨c, hc, hr⟩
        exact ⟨c, hc, hr.symm⟩

/-- The rows of the tool rollup are exactly the rows built for the
`(company, tool)` keys occurring in the filtered tool-call list. -/
lemma mem_toolAgg {tcs : List ToolCallRecord} {r : ToolRow} :
    r ∈ (aggregate_tool_calls_by_name tcs).rows ↔
      ∃ k, k ∈ (filteredToolCalls tcs).map (fun t => (t.company_name, t.tool_name)) ∧
        r = toolRowOf (filteredToolCalls tcs) k := by
  by_cases h1 : tcs.isEmpty
  · have h0 : tcs = [] := List.isEmpty_iff.mp h1
    subst h0
    simp [aggregate_tool_calls_by_name, filteredToolCalls]
  · by_cases h2 : (filteredToolCalls tcs).isEmpty
    · have hnil : filteredToolCalls tcs = [] := List.isEmpty_iff.mp h2
      simp [aggregate_tool_calls_by_name, h1, h2, hnil]
    · simp only [aggregate_tool_calls_by_name, h1, h2, Bool.false_eq_true,
        if_false, List.mem_insertionSort, List.mem_map, List.mem_dedup]
      constructor
      · rintro ⟨k, hk, hr⟩
        exact ⟨k, hk, hr.symm⟩
      · rintro ⟨k, hk, hr⟩
        exact ⟨k, hk, hr.symm⟩

/-- A company occurring in a trace list has at least one record in its
group. -/
lemma companyRecords_length_pos {df : List TraceRecord} {c : String}
    (h : c ∈ df.map (fun t => t.company_name)) :
    0 < (companyRecords df c).length := by
  obtain ⟨t, ht, rfl⟩ := List.mem_map.mp h
  have : t ∈ companyRecords df t.company_name := mem_companyRecords.mpr ⟨ht, rfl⟩
  exact List.length_pos.mpr (List.ne_nil_of_mem this)

/-- A company occurring in a trace list has at least one distinct
conversation id. -/
lemma distinctConversationCount_pos {df : List TraceRecord} {c : String}
    (h : c ∈ df.map (fun t => t.company_name)) :
    0 < distinctConversationCount df c := by
  have hlen := companyRecords_length_pos h
  unfold distinctConversationCount
  rw [List.length_pos]
  intro hnil
  have : (companyRecords df c).map (fun t => t.conversation_id) = [] :=
    (List.dedup_eq_nil _).mp hnil
  have : (companyRecords df c).length = 0 := by
    simpa using congrArg List.length this
  omega

/-- The number of distinct conversation ids of a company never exceeds its
raw record count. -/
lemma distinctConversationCount_le (df : List TraceRecord) (c : String) :
    distinctConversationCount df c ≤ (companyRecords df c).length := by
  unfold distinctConversationCount
  calc ((companyRecords df c).map (fun t => t.conversation_id)).dedup.length
      ≤ ((companyRecords df c).map (fun t => t.conversation_id)).length :=
        (List.dedup_sublist _).length_le
    _ = (companyRecords df c).length := List.length_map _ _

/-- A `(company, tool)` key occurring in a tool-call list has a non-empty
record group. -/
lemma toolRecords_length_pos {df : List ToolCallRecord} {k : String × String}
    (h : k ∈ df.map (fun t => (t.company_name, t.tool_name))) :
    0 < (toolRecords df k.1 k.2).length := by
  obtain ⟨t, ht, rfl⟩ := List.mem_map.mp h
  have : t ∈ toolRecords df t.company_name t.tool_name :=
    mem_toolRecords.mpr ⟨ht, rfl, rfl⟩
  exact List.length_pos.mpr (List.ne_nil_of_mem this)

/-- Division algorithm over ℚ for natural casts. -/
lemma natCast_div_eq (n d : Nat) (hd : 0 < d) :
    (n : ℚ) / d = ((n / d : ℕ) : ℚ) + ((n % d : ℕ) : ℚ) / d := by
  have hdq : (d : ℚ) ≠ 0 := Nat.cast_ne_zero.mpr hd.ne'
  have hsplit : ((n / d : ℕ) : ℚ) * d + ((n % d : ℕ) : ℚ) = (n : ℚ) := by
    exact_mod_cast congrArg (Nat.cast : ℕ → ℚ) (Nat.div_add_mod' n d)
  calc (n : ℚ) / d = (((n / d : ℕ) : ℚ) * d + ((n % d : ℕ) : ℚ)) / d := by rw [hsplit]
    _ = ((n / d : ℕ) : ℚ) + ((n % d : ℕ) : ℚ) / d := by
        rw [add_div, mul_div_cancel_right₀ _ hdq]

/-- The floor of a quotient of natural casts is natural division. -/
lemma floor_natCast_div (n d : Nat) (hd : 0 < d) :
    ⌊(n : ℚ) / d⌋ = ((n / d : ℕ) : ℤ) := by
  have hdq : (0 : ℚ) < d := by exact_mod_cast hd
  rw [natCast_div_eq n d hd, add_comm, Int.floor_add_nat]
  have h0 : ⌊((n % d : ℕ) : ℚ) / d⌋ = 0 := by
    rw [Int.floor_eq_zero_iff]
    constructor
    · positivity
    · rw [div_lt_one hdq]
      exact_mod_cast Nat.mod_lt n hd
  rw [h0, zero_add]

/-- The integer rounding computed in natural arithmetic agrees with
half-to-even rounding of the exact rational quotient. -/
lemma roundTenths_eq (n d : Nat) (hd : 0 < d) :
    ((roundTenthsHalfEven n d : ℕ) : ℤ) = roundHalfEvenQ ((n : ℚ) / d) := by
  have hdq : (0 : ℚ) < d := by exact_mod_cast hd
  have hfloor := floor_natCast_div n d hd
  have hfrac : (n : ℚ) / d - (⌊(n : ℚ) / d⌋ : ℚ) = ((n % d : ℕ) : ℚ) / d := by
    rw [hfloor, natCast_div_eq n d hd, Int.cast_natCast]
    ring
  have hlt : (((n % d : ℕ) : ℚ) / d < 1 / 2) ↔ 2 * (n % d) < d := by
    rw [div_lt_div_iff₀ hdq (by norm_num : (0 : ℚ) < 2), one_mul, mul_comm]
    exact_mod_cast Iff.rfl
  have hgt : (1 / 2 < ((n % d : ℕ) : ℚ) / d) ↔ d < 2 * (n % d) := by
    rw [div_lt_div_iff₀ (by norm_num : (0 : ℚ) < 2) hdq, one_mul, mul_comm]
    exact_mod_cast Iff.rfl
  have hpar : (((n / d : ℕ) : ℤ) % 2 = 0) ↔ ((n / d) % 2 = 0) := by omega
  unfold roundHalfEvenQ roundTenthsHalfEven
  simp only [hfrac]
  simp only [hfloor, hlt, hgt, hpar]
  split_ifs <;> simp

/-- The Success Rate (%) value of a tool rollup row is exactly
`successful / total * 100` rounded to one decimal place. -/
lemma successRateTenths_eq (s t : Nat) (ht : 0 < t) :
    ((roundTenthsHalfEven (s * 1000) t : ℕ) : ℚ) / 10 =
      round1 ((s : ℚ) / (t : ℚ) * 100) := by
  unfold round1
  have harg : (s : ℚ) / t * 100 * 10 = ((s * 1000 : ℕ) : ℚ) / t := by
    push_cast
    ring
  rw [harg, ← roundTenths_eq (s * 1000) t ht]
  push_cast
  ring

/-- The pagination loop issues at most one request per page between the
current page and the ceiling. -/
lemma fetchGo_requests_le (api : Nat → PageOutcome) (pageSize maxPages : Nat) :
    ∀ k page acc reqs, maxPages + 1 - page ≤ k →
      (fetchGo api pageSize maxPages page acc reqs).2 ≤ reqs + (maxPages + 1 - page) := by
  intro k
  induction k with
  | zero =>
    intro page acc reqs hk
    have hpg : maxPages < page := by omega
    rw [fetchGo.eq_def]
    simp [hpg]
  | succ k ih =>
    intro page acc reqs hk
    by_cases hpg : maxPages < page
    · rw [fetchGo.eq_def]
      simp [hpg]
    · have hge : 1 ≤ maxPages + 1 - page := by omega
      rw [fetchGo.eq_def]
      simp only [hpg, dite_false]
      cases hapi : api page with
      | requestError => simp; omega
      | processError =>
        by_cases h1 : page = 1
        · simp [h1]; omega
        · by_cases hceil : maxPages < page + 1
          · simp [h1, hceil]; omega
          · simp only [h1, if_false, hceil]
            have hrec := ih (page + 1) acc (reqs + 1) (by omega)
            calc (fetchGo api pageSize maxPages (page + 1) acc (reqs + 1)).2
                ≤ (reqs + 1) + (maxPages + 1 - (page + 1)) := hrec
              _ ≤ reqs + (maxPages + 1 - page) := by omega
      | http status data meta =>
        by_cases hst : status = 200
        · by_cases hempty : data.isEmpty
          · simp [hst, hempty]; omega
          · by_cases hmore : (!pageHasMore pageSize data meta || data.length < pageSize) = true
            · simp [hst, hempty, hmore]; omega
            · by_cases hceil : maxPages < page + 1
              · simp [hst, hempty, hmore, hceil]; omega
              · simp only [hst, if_true, hempty, Bool.false_eq_true, if_false, hmore, hceil]
                have hrec := ih (page + 1) (acc ++ data.map normalizeTrace) (reqs + 1) (by omega)
                calc (fetchGo api pageSize maxPages (page + 1)
                        (acc ++ data.map normalizeTrace) (reqs + 1)).2
                    ≤ (reqs + 1) + (maxPages + 1 - (page + 1)) := hrec
                  _ ≤ reqs + (maxPages + 1 - page) := by omega
        · simp [hst]; omega

end Lemmas

/-- C1: For every non-empty list of trace records, the company rollup
reports, for each company not on the test-account denylist, a Number of
Conversations equal to the number of distinct conversation ids among that
company's records and a Number of Tool Calls equal to the raw count of
that company's records; in particular three Acme records with
conversation ids c1, c1, c2 yield 2 conversations and 3 tool calls. -/
theorem C1_company_rollup_counts (traces : List TraceRecord) :
    (∀ r ∈ (aggregate_company_conversations traces).rows,
        r.numConversations = distinctConversationCount (filteredTraces traces) r.company ∧
        r.numToolCalls = (companyRecords (filteredTraces traces) r.company).length) ∧
    (∀ c, isTestCompany c = false → (∃ t ∈ traces, t.company_name = c) →
        ∃ r ∈ (aggregate_company_conversations traces).rows, r.company = c) ∧
    (aggregate_company_conversations acmeTraces).rows.map
        (fun r => (r.company, r.numConversations, r.numToolCalls)) = [("Acme", 2, 3)] := by
  refine ⟨?_, ?_, by decide⟩
  · intro r hr
    obtain ⟨c, hc, rfl⟩ := mem_companyAgg.mp hr
    exact ⟨rfl, rfl⟩
  · intro c hct ⟨t, ht, htc⟩
    have hmem : t ∈ filteredTraces traces := by
      rw [mem_filteredTraces]
      exact ⟨ht, htc ▸ hct⟩
    have hcmem : c ∈ (filteredTraces traces).map (fun t => t.company_name) :=
      List.mem_map.mpr ⟨t, hmem, htc⟩
    exact ⟨companyRowOf (filteredTraces traces) c,
      mem_companyAgg.mpr ⟨c, hcmem, rfl⟩, rfl⟩

/-- C1 witness: the universal part applied to the Acme example. -/
theorem C1_company_rollup_counts_witness :
    ((⟨"Acme", 2, 3, 0, 0⟩ : CompanyRow) ∈ (aggregate_company_conversations acmeTraces).rows ∧
      ((⟨"Acme", 2, 3, 0, 0⟩ : CompanyRow).numConversations
          = distinctConversationCount (filteredTraces acmeTraces)
              (⟨"Acme", 2, 3, 0, 0⟩ : CompanyRow).company ∧
        (⟨"Acme", 2, 3, 0, 0⟩ : CompanyRow).numToolCalls
          = (companyRecords (filteredTraces acmeTraces)
              (⟨"Acme", 2, 3, 0, 0⟩ : CompanyRow).company).length)) ∧
    (isTestCompany "Acme" = false ∧
      ∃ r ∈ (aggregate_company_conversations acmeTraces).rows, r.company = "Acme") :=
  ⟨⟨by decide, (C1_company_rollup_counts acmeTraces).1 _ (by decide)⟩,
    by decide,
    (C1_company_rollup_counts acmeTraces).2.1 "Acme" (by decide)
      ⟨⟨"Acme", "c1", "t1", 0, 0⟩, by decide, rfl⟩⟩

/-- C3: the test-account exclusion filter used by both rollups matches the
company name against the denylist case-insensitively and by whole-string
equality only: a record named Test or TEST is excluded, a record named
Testing is kept (no substring matching), and the filter depends only on
the lowercased name. -/
theorem C3_filter_case_insensitive_exact :
    (∀ a b : String, pyLower a = pyLower b → isTestCompany a = isTestCompany b) ∧
    (isTestCompany "Test" = true ∧ isTestCompany "TEST" = true ∧
      isTestCompany "Testing" = false) ∧
    ((aggregate_company_conversations [⟨"Test", "c", "t", 0, 0⟩]).rows = [] ∧
      (aggregate_company_conversations [⟨"TEST", "c", "t", 0, 0⟩]).rows = [] ∧
      (aggregate_company_conversations [⟨"Testing", "c", "t", 0, 0⟩]).rows
        = [⟨"Testing", 1, 1, 0, 0⟩] ∧
      (aggregate_tool_calls_by_name [⟨"Test", "x", true⟩]).rows = [] ∧
      (aggregate_tool_calls_by_name [⟨"Testing", "x", true⟩]).rows
        = [⟨"Testing", "x", 1, 1, 0, 1000⟩]) := by
  refine ⟨?_, by decide, by decide⟩
  intro a b hab
  unfold isTestCompany
  rw [hab]

/-- C3 witness: case-insensitivity applied to two concrete spellings. -/
theorem C3_filter_case_insensitive_exact_witness :
    pyLower "TeSt" = pyLower "tesT" ∧ isTestCompany "TeSt" = isTestCompany "tesT" :=
  ⟨by decide, C3_filter_case_insensitive_exact.1 "TeSt" "tesT" (by decide)⟩

/-- C5: no output row of the tool rollup has Total Calls equal to zero
(every group contains at least the record that created it), so the
success-rate division is never evaluated with a zero denominator: the
zero-denominator branch is unreachable. -/
theorem C5_no_zero_denominator (tool_calls : List ToolCallRecord) :
    ∀ r ∈ (aggregate_tool_calls_by_name tool_calls).rows, 0 < r.totalCalls := by
  intro r hr
  obtain ⟨k, hk, rfl⟩ := mem_toolAgg.mp hr
  exact toolRecords_length_pos hk

/-- C5 witness: applied to the three-search-calls example. -/
theorem C5_no_zero_denominator_witness :
    (⟨"Acme", "search", 3, 2, 1, 667⟩ : ToolRow)
        ∈ (aggregate_tool_calls_by_name searchCalls).rows ∧
      0 < (⟨"Acme", "search", 3, 2, 1, 667⟩ : ToolRow).totalCalls :=
  ⟨by decide, C5_no_zero_denominator searchCalls _ (by decide)⟩

/-- C6: on the empty input each rollup returns a zero-row frame that still
carries its full expected column set (and, being a total function, neither
raises nor returns a null value). -/
theorem C6_empty_input_shape :
    aggregate_company_conversations [] = ⟨companyEmptyColumns, []⟩ ∧
    aggregate_tool_calls_by_name [] = ⟨toolColumns, []⟩ ∧
    companyEmptyColumns
      = ["Company", "Number of Conversations", "Number of Tool Calls"] ∧
    toolColumns
      = ["Company", "Tool Name", "Total Calls", "Successful", "Failed",
         "Success Rate (%)"] :=
  ⟨rfl, rfl, rfl, rfl⟩

/-- C10: every row of the company rollup satisfies
1 ≤ Number of Conversations ≤ Number of Tool Calls: each reported company
has at least one record, and its distinct conversation ids cannot exceed
its raw record count.  The outer join never introduces a zero row because
all groupings share one key set. -/
theorem C10_company_row_bounds (traces : List TraceRecord) :
    ∀ r ∈ (aggregate_company_conversations traces).rows,
      1 ≤ r.numConversations ∧ r.numConversations ≤ r.numToolCalls := by
  intro r hr
  obtain ⟨c, hc, rfl⟩ := mem_companyAgg.mp hr
  exact ⟨distinctConversationCount_pos hc, distinctConversationCount_le _ _⟩

/-- C10 witness: applied to the Acme example row. -/
theorem C10_company_row_bounds_witness :
    (⟨"Acme", 2, 3, 0, 0⟩ : CompanyRow) ∈ (aggregate_company_conversations acmeTraces).rows ∧
      (1 ≤ (⟨"Acme", 2, 3, 0, 0⟩ : CompanyRow).numConversations ∧
        (⟨"Acme", 2, 3, 0, 0⟩ : CompanyRow).numConversations
          ≤ (⟨"Acme", 2, 3, 0, 0⟩ : CompanyRow).numToolCalls) :=
  ⟨by decide, C10_company_row_bounds acmeTraces _ (by decide)⟩

/-- C9: no output row of either rollup carries a denylisted company, the
denylist contains the entry for the fetch sentinel Unknown Company, and a
trace missing all company keys normalizes to a company the filter
excludes, so such records never contribute to any aggregate. -/
theorem C9_denylisted_companies_never_reported :
    (∀ traces : List TraceRecord, ∀ r ∈ (aggregate_company_conversations traces).rows,
        isTestCompany r.company = false) ∧
    (∀ tool_calls : List ToolCallRecord, ∀ r ∈ (aggregate_tool_calls_by_name tool_calls).rows,
        isTestCompany r.company = false) ∧
    isTestCompany "Unknown Company" = true ∧
    (∀ t : RawTrace, t.md_company_name = none → t.md_companyName = none →
        t.md_company = none → isTestCompany (normalizeTrace t).company_name = true) := by
  refine ⟨?_, ?_, by decide, ?_⟩
  · intro traces r hr
    obtain ⟨c, hc, rfl⟩ := mem_companyAgg.mp hr
    obtain ⟨t, ht, htc⟩ := List.mem_map.mp hc
    have := mem_filteredTraces.mp ht
    exact htc ▸ this.2
  · intro tool_calls r hr
    obtain ⟨k, hk, rfl⟩ := mem_toolAgg.mp hr
    obtain ⟨t, ht, htk⟩ := List.mem_map.mp hk
    have hfalse := (mem_filteredToolCalls.mp ht).2
    have hc : t.company_name = (toolRowOf (filteredToolCalls tool_calls) k).company := by
      rw [← htk]
      rfl
    exact hc ▸ hfalse
  · intro t h1 h2 h3
    simp [normalizeTrace, firstTruthy, pyTruthy, h1, h2, h3]
    decide

/-- C9 witness: the company-rollup part applied to a singleton Unknown
Company trace list gives no rows, and the normalizer part applied to a
concrete keyless raw trace. -/
theorem C9_denylisted_companies_never_reported_witness :
    ((⟨"Acme", 2, 3, 0, 0⟩ : CompanyRow) ∈ (aggregate_company_conversations acmeTraces).rows ∧
      isTestCompany (⟨"Acme", 2, 3, 0, 0⟩ : CompanyRow).company = false) ∧
    (rawNoCompany.md_company_name = none ∧
      isTestCompany (normalizeTrace rawNoCompany).company_name = true) :=
  ⟨⟨by decide, C9_denylisted_companies_never_reported.1 acmeTraces _ (by decide)⟩,
    ⟨by decide, C9_denylisted_companies_never_reported.2.2.2 rawNoCompany rfl rfl rfl⟩⟩

/-- C2: the tool rollup groups the non-denylisted records by
`(company_name, tool_name)` and reports, per group, Total Calls = group
size, Successful = number of records with success true, Failed = total
minus successful, and Success Rate = successful / total * 100 rounded to
one decimal place; in particular three search calls with success true,
false, true yield Total Calls 3, Successful 2, Failed 1, Success Rate 66.7. -/
theorem C2_tool_rollup_fields (tool_calls : List ToolCallRecord) :
    (∀ r ∈ (aggregate_tool_calls_by_name tool_calls).rows,
        r.totalCalls
            = (toolRecords (filteredToolCalls tool_calls) r.company r.toolName).length ∧
        r.successful
            = (toolRecords (filteredToolCalls tool_calls) r.company r.toolName).countP
                (fun t => t.success) ∧
        r.failed = r.totalCalls - r.successful ∧
        r.successRate = round1 ((r.successful : ℚ) / (r.totalCalls : ℚ) * 100)) ∧
    (∀ c n, isTestCompany c = false →
        (∃ t ∈ tool_calls, t.company_name = c ∧ t.tool_name = n) →
        ∃ r ∈ (aggregate_tool_calls_by_name tool_calls).rows,
          r.company = c ∧ r.toolName = n) ∧
    ((aggregate_tool_calls_by_name searchCalls).rows
        = [⟨"Acme", "search", 3, 2, 1, 667⟩] ∧
      (⟨"Acme", "search", 3, 2, 1, 667⟩ : ToolRow).successRate = 667 / 10) := by
  refine ⟨?_, ?_, by decide, by norm_num [ToolRow.successRate]⟩
  · intro r hr
    obtain ⟨k, hk, rfl⟩ := mem_toolAgg.mp hr
    refine ⟨rfl, rfl, rfl, ?_⟩
    exact successRateTenths_eq _ _ (toolRecords_length_pos hk)
  · intro c n hct ⟨t, ht, htc, htn⟩
    have hmem : t ∈ filteredToolCalls tool_calls := by
      rw [mem_filteredToolCalls]
      exact ⟨ht, htc ▸ hct⟩
    have hkmem : (c, n) ∈ (filteredToolCalls tool_calls).map
        (fun t => (t.company_name, t.tool_name)) :=
      List.mem_map.mpr ⟨t, hmem, by rw [htc, htn]⟩
    exact ⟨toolRowOf (filteredToolCalls tool_calls) (c, n),
      mem_toolAgg.mpr ⟨(c, n), hkmem, rfl⟩, rfl, rfl⟩

/-- C2 witness: the universal part applied to the three-search-calls
example row. -/
theorem C2_tool_rollup_fields_witness :
    (⟨"Acme", "search", 3, 2, 1, 667⟩ : ToolRow)
        ∈ (aggregate_tool_calls_by_name searchCalls).rows ∧
      ((⟨"Acme", "search", 3, 2, 1, 667⟩ : ToolRow).totalCalls
          = (toolRecords (filteredToolCalls searchCalls)
              (⟨"Acme", "search", 3, 2, 1, 667⟩ : ToolRow).company
              (⟨"Acme", "search", 3, 2, 1, 667⟩ : ToolRow).toolName).length ∧
        (⟨"Acme", "search", 3, 2, 1, 667⟩ : ToolRow).successful
          = (toolRecords (filteredToolCalls searchCalls)
              (⟨"Acme", "search", 3, 2, 1, 667⟩ : ToolRow).company
              (⟨"Acme", "search", 3, 2, 1, 667⟩ : ToolRow).toolName).countP
                (fun t => t.success) ∧
        (⟨"Acme", "search", 3, 2, 1, 667⟩ : ToolRow).failed
          = (⟨"Acme", "search", 3, 2, 1, 667⟩ : ToolRow).totalCalls
              - (⟨"Acme", "search", 3, 2, 1, 667⟩ : ToolRow).successful ∧
        (⟨"Acme", "search", 3, 2, 1, 667⟩ : ToolRow).successRate
          = round1 (((⟨"Acme", "search", 3, 2, 1, 667⟩ : ToolRow).successful : ℚ)
              / ((⟨"Acme", "search", 3, 2, 1, 667⟩ : ToolRow).totalCalls : ℚ) * 100)) :=
  ⟨by decide, (C2_tool_rollup_fields searchCalls).1 _ (by decide)⟩

/-- C4: a non-request error raised while processing a page after the first
(reachable only once an earlier page succeeded) does not abort the fetch:
when the ceiling allows, the loop moves on to the next page keeping the
records gathered so far; whereas a request-level exception on the very
first page aborts the fetch with an empty result. -/
theorem C4_page_error_semantics :
    (∀ (api : Nat → PageOutcome) (pageSize maxPages page : Nat)
        (acc : List TraceRecord) (reqs : Nat),
        2 ≤ page → page + 1 ≤ maxPages → api page = .processError →
        fetchGo api pageSize maxPages page acc reqs
          = fetchGo api pageSize maxPages (page + 1) acc (reqs + 1)) ∧
    (∀ api : Nat → PageOutcome, api 1 = .requestError →
        fetch_traces_by_company api = []) := by
  constructor
  · intro api pageSize maxPages page acc reqs h2 hceil hapi
    rw [fetchGo.eq_def]
    simp [hapi, show ¬maxPages < page by omega, show ¬page = 1 by omega,
      show ¬maxPages < page + 1 by omega]
  · intro api hapi
    unfold fetch_traces_by_company
    rw [fetchGo.eq_def]
    simp [hapi]

/-- C4 witness: a processing error on page 2 of a concrete API advances to
page 3 with the accumulated record kept, and a request error on page 1
yields the empty fetch. -/
theorem C4_page_error_semantics_witness :
    fetchGo (fun p => if p = 2 then .processError else .http 200 [rawAcme] none)
        50 100 2 [normalizeTrace rawAcme] 1
      = fetchGo (fun p => if p = 2 then .processError else .http 200 [rawAcme] none)
        50 100 3 [normalizeTrace rawAcme] 2 ∧
    fetch_traces_by_company (fun _ => .requestError) = [] :=
  ⟨C4_page_error_semantics.1 _ 50 100 2 [normalizeTrace rawAcme] 1
      (by decide) (by decide) rfl,
    C4_page_error_semantics.2 _ rfl⟩

/-- C7: a fetched trace missing all recognized company-name keys
(`metadata.company_name`, `metadata.companyName`, `metadata.company`) is
normalized with the sentinel company name Unknown Company, and every
record of a successfully processed page is appended to the fetch result
rather than dropped. -/
theorem C7_missing_company_sentinel :
    (∀ t : RawTrace, t.md_company_name = none → t.md_companyName = none →
        t.md_company = none → (normalizeTrace t).company_name = "Unknown Company") ∧
    (∀ data : List RawTrace,
        fetch_traces_by_company (fun _ => .http 200 data (some (1, 1)))
          = data.map normalizeTrace) := by
  constructor
  · intro t h1 h2 h3
    simp [normalizeTrace, firstTruthy, pyTruthy, h1, h2, h3]
  · intro data
    unfold fetch_traces_by_company
    rw [fetchGo.eq_def]
    by_cases hd : data.isEmpty
    · have : data = [] := List.isEmpty_iff.mp hd
      subst this
      simp [pageHasMore]
    · simp [hd, pageHasMore]

/-- C7 witness: the normalizer applied to a concrete keyless trace, and a
one-page fetch that keeps that record. -/
theorem C7_missing_company_sentinel_witness :
    (rawNoCompany.md_company_name = none ∧ rawNoCompany.md_companyName = none ∧
      rawNoCompany.md_company = none ∧
      (normalizeTrace rawNoCompany).company_name = "Unknown Company") ∧
    fetch_traces_by_company (fun _ => .http 200 [rawNoCompany] (some (1, 1)))
      = [rawNoCompany].map normalizeTrace :=
  ⟨⟨rfl, rfl, rfl, C7_missing_company_sentinel.1 rawNoCompany rfl rfl rfl⟩,
    C7_missing_company_sentinel.2 [rawNoCompany]⟩

/-- C8: every fetch terminates after at most the hard page ceiling of 100
requests (in the model the loop is a total function and the request count
is bounded); it stops after a single request on a non-success status, a
request-level failure, an empty page, or when the server reports no
further pages; and an API that always returns full pages is cut off at the
ceiling with the gathered records kept (informational truncation, not an
error). -/
theorem C8_pagination_bounded :
    (∀ api : Nat → PageOutcome, fetchRequestCount api ≤ 100) ∧
    (fetchRequestCount (fun _ => .http 500 [rawAcme] none) = 1 ∧
      fetchRequestCount (fun _ => .requestError) = 1 ∧
      fetchRequestCount (fun _ => .http 200 [] none) = 1 ∧
      fetchRequestCount (fun _ => .http 200 [rawAcme] (some (1, 1))) = 1) ∧
    fetchGo (fun _ => .http 200 [rawAcme] none) 1 3 1 [] 0
      = ([normalizeTrace rawAcme, normalizeTrace rawAcme, normalizeTrace rawAcme], 3) := by
  refine ⟨?_, ⟨?_, ?_, ?_, ?_⟩, ?_⟩
  · intro api
    have := fetchGo_requests_le api 50 100 100 1 [] 0 (by omega)
    simpa [fetchRequestCount] using this
  · simp [fetchRequestCount, fetchGo]
  · simp [fetchRequestCount, fetchGo]
  · simp [fetchRequestCount, fetchGo, pageHasMore]
  · simp [fetchRequestCount, fetchGo, pageHasMore]
  · simp [fetchGo, pageHasMore]
